import Mathlib

/-!
Verification of the thread / run / message orchestration layer of a
conversational LangGraph service.  The definitions below are a shallow
embedding of the three library modules under src/api/libs
(langgraph_threads.py, langgraph_runs.py, langgraph_messages.py);
the external LangGraph service is modelled as an explicit thread store,
and every network call is represented either by that store or by an
explicit result value.
-/

/-- A message record in a thread's persisted log: its role tag
(the string stored under the key named type, such as "human" or "ai"),
its textual content, and whether the key named tool underscore calls is
present in its additional keyword arguments. -/
structure Msg where
  mtype : String
  content : String
  toolCalls : Bool
deriving DecidableEq

/-- A question/answer pair assembled by get_messages; Lean's none models
the Python value None that _init_message puts in both fields. -/
structure QAPair where
  question : Option String
  answer : Option String
deriving DecidableEq

/-- The scanning loop of LangGraphMessages.get_messages: a human-role
message without tool-call metadata sets the question of the pending
pair; an ai-role message without tool-call metadata sets the answer,
appends the pair and restarts from a fresh pending pair. -/
def pairLoop : List Msg → QAPair → List QAPair
  | [], _ => []
  | m :: rest, pend =>
    let pend1 := if m.mtype == "human" && !m.toolCalls then
      { pend with question := some m.content } else pend
    if m.mtype == "ai" && !m.toolCalls then
      { pend1 with answer := some m.content } :: pairLoop rest ⟨none, none⟩
    else
      pairLoop rest pend1

/-- The pairing pass of get_messages over a full message log, started
from the pair produced by _init_message. -/
def loadMessages (log : List Msg) : List QAPair := pairLoop log ⟨none, none⟩

/-- A thread record held by the external LangGraph service: its thread
id, the user id stored in its metadata, and its lifecycle status
(such as "idle" or "busy"). -/
structure ThreadInfo where
  tid : String
  uid : String
  status : String
deriving DecidableEq

/-- Models the external LangGraph service's thread store: the stored
threads in the service's default listing order, plus a counter from
which fresh thread ids are issued. -/
structure Store where
  threads : List ThreadInfo
  nextId : Nat
deriving DecidableEq

/-- Whether a stored thread matches a search query on a user id and an
optional lifecycle status constraint. -/
def matchesQ (uid : String) (statusF : Option String) (t : ThreadInfo) : Bool :=
  t.uid == uid && statusF.all (fun st => t.status == st)

/-- Models client.threads.search with a metadata constraint on the user
id, an optional status constraint, and limit/offset pagination. -/
def searchThreads (s : Store) (uid : String) (statusF : Option String)
    (limit offset : Nat) : List ThreadInfo :=
  ((s.threads.filter (matchesQ uid statusF)).drop offset).take limit

/-- Embedding of LangGraphThreads._search_thread at its default
arguments (limit 1, offset 0): searches idle threads tagged with the
user id and returns the last entry of the result page, or none when the
page is empty. -/
def search_thread (s : Store) (uid : String) : Option String :=
  ((searchThreads s uid (some "idle") 1 0).getLast?).map (fun t => t.tid)

/-- Fresh thread id issued by the modelled service. -/
def freshTid (s : Store) : String := "thread-" ++ toString s.nextId

/-- Embedding of LangGraphThreads._create_thread together with the
service side of client.threads.create: the service stores a new thread
whose metadata carries the user id; a newly created thread starts in
the "idle" lifecycle state (LangGraph server behaviour).  Returns the
updated store and the new thread id. -/
def create_thread (s : Store) (uid : String) : Store × String :=
  (⟨s.threads ++ [⟨freshTid s, uid, "idle"⟩], s.nextId + 1⟩, freshTid s)

/-- Embedding of LangGraphThreads.get_thread: search for the user's
idle thread and create one only when the search finds none.  The middle
component counts the create calls issued. -/
def get_thread (s : Store) (uid : String) : Store × Nat × String :=
  match search_thread s uid with
  | some tid => (s, 0, tid)
  | none =>
    let c := create_thread s uid
    (c.1, 1, c.2)

/-- The pagination loop of LangGraphThreads.get_threads over the list
of threads the service matches for the user (no status constraint):
each round takes the page at the current offset, stops on an empty
page, and otherwise records the page's last thread id and advances the
offset by the limit. -/
def collect_threads_loop (fil : List ThreadInfo) (limit offset : Nat) : List String :=
  if h : (fil.drop offset).take limit = [] then []
  else (((fil.drop offset).take limit).getLast h).tid ::
    collect_threads_loop fil limit (offset + limit)
termination_by fil.length - offset
decreasing_by
  have hd : fil.drop offset ≠ [] := by
    intro hnil
    simp [hnil] at h
  have hlim : limit ≠ 0 := by
    intro hl
    simp [hl] at h
  have hlen : offset < fil.length := by
    by_contra hle
    exact hd (List.drop_eq_nil_of_le (Nat.le_of_not_lt hle))
  omega

/-- Embedding of LangGraphThreads.get_threads at its default arguments
(limit 1, offset 0): paginates through every thread tagged with the
user id regardless of lifecycle status. -/
def get_threads (s : Store) (uid : String) : List String :=
  collect_threads_loop (s.threads.filter (fun t => t.uid == uid)) 1 0

/-- Service side of client.threads.delete: removes the thread with the
given id from the store. -/
def deleteCall (s : Store) (tid : String) : Store :=
  ⟨s.threads.filter (fun t => !(t.tid == tid)), s.nextId⟩

/-- Embedding of LangGraphThreads.delete_thread: resolves the user's
idle thread by search only (no creation) and deletes it when found.
Returns the store, the thread ids passed to delete calls, and the
function's return value. -/
def delete_thread (s : Store) (uid : String) : Store × List String × Option String :=
  match search_thread s uid with
  | none => (s, [], none)
  | some tid => (deleteCall s tid, [tid], some tid)

/-- The deletion loop of LangGraphThreads.delete_threads: deletes each
listed id in order; also returns the ids passed to delete calls. -/
def deleteEach (s : Store) : List String → Store × List String
  | [] => (s, [])
  | tid :: rest =>
    let r := deleteEach (deleteCall s tid) rest
    (r.1, tid :: r.2)

/-- Embedding of LangGraphThreads.delete_threads: lists all the user's
threads in any lifecycle state via get_threads and deletes each.
Returns the store, the delete calls issued, and the returned ids. -/
def delete_threads (s : Store) (uid : String) : Store × List String × List String :=
  let ids := get_threads s uid
  let r := deleteEach s ids
  (r.1, r.2, ids)

/-- A payload entry of a streamed messages event: the text stored under
the key named content when that key is present, whether the key named
tool underscore calls occurs in its additional keyword arguments, and
the entry's type tag (incremental assistant fragments carry the tag
"AIMessageChunk"). -/
structure Entry where
  content : Option String
  toolCalls : Bool
  etype : String
deriving DecidableEq

/-- One event of the messages-tuple stream: its event classification
string and its payload entries. -/
structure Chunk where
  event : String
  data : List Entry
deriving DecidableEq

/-- The filter both stream consumers in langgraph_runs.py apply to a
payload entry: the content key is present, no tool-call metadata, and
the entry is an incremental assistant-message fragment. -/
def qualifies (e : Entry) : Bool :=
  e.content.isSome && !e.toolCalls && e.etype == "AIMessageChunk"

/-- The fragment text of a payload entry. -/
def entryText (e : Entry) : String := e.content.getD ""

/-- Lower-case hexadecimal digit, as Python's json module prints it. -/
def hexDigit (n : Nat) : Char :=
  if n < 10 then Char.ofNat (48 + n) else Char.ofNat (87 + n)

/-- Four-digit hexadecimal rendering of a scalar below 2 ^ 16. -/
def hex4 (n : Nat) : List Char :=
  [hexDigit (n / 4096 % 16), hexDigit (n / 256 % 16), hexDigit (n / 16 % 16), hexDigit (n % 16)]

/-- Models the escaping json.dumps applies to one character of a string
value at its defaults (ensure_ascii true): the two-character escapes for
quote, backslash and common control characters, a four-digit escape for
the remaining control and non-ASCII characters, and a surrogate pair
beyond the basic plane. -/
def escChar (c : Char) : List Char :=
  if c = '"' then ['\\', '"']
  else if c = '\\' then ['\\', '\\']
  else if c = '\n' then ['\\', 'n']
  else if c = '\t' then ['\\', 't']
  else if c = '\r' then ['\\', 'r']
  else if c.toNat = 8 then ['\\', 'b']
  else if c.toNat = 12 then ['\\', 'f']
  else if 32 ≤ c.toNat ∧ c.toNat ≤ 126 then [c]
  else if c.toNat < 65536 then '\\' :: 'u' :: hex4 c.toNat
  else
    ('\\' :: 'u' :: hex4 (55296 + (c.toNat - 65536) / 1024)) ++
      ('\\' :: 'u' :: hex4 (56320 + (c.toNat - 65536) % 1024))

/-- Models json.dumps escaping over a whole string value. -/
def escString (s : String) : String := ⟨s.data.flatMap escChar⟩

/-- Models json.dumps applied to a dict with the single key named
answer holding a string, at the Python default separators. -/
def jsonAnswer (s : String) : String :=
  "\x7b\"answer\": \"" ++ escString s ++ "\"\x7d"

/-- The per-entry emission of the generator inside get_stream: one
server-sent-events line per qualifying payload entry, holding the JSON
object with the fragment under the answer key, prefixed by the marker
"data: " and terminated by a newline. -/
def sseLinesOf : List Entry → List String
  | [] => []
  | e :: rest =>
    (if qualifies e then ["data: " ++ jsonAnswer (entryText e) ++ "\n"] else []) ++
      sseLinesOf rest

/-- The lines the generator returned by get_stream yields over a whole
event stream: only events classified as messages events contribute. -/
def sseGen : List Chunk → List String
  | [] => []
  | c :: rest => (if c.event == "messages" then sseLinesOf c.data else []) ++ sseGen rest

/-- The per-entry emission of the generator inside set_requests: the
payload dict holds the fragment text under the single answer key; the
model records that text. -/
def webhookGenOf : List Entry → List String
  | [] => []
  | e :: rest => (if qualifies e then [entryText e] else []) ++ webhookGenOf rest

/-- The payloads the generator inside set_requests yields over a whole
event stream. -/
def webhookGen : List Chunk → List String
  | [] => []
  | c :: rest => (if c.event == "messages" then webhookGenOf c.data else []) ++ webhookGen rest

/-- The qualifying fragments of an event stream, stated directly as the
specification formulates it: take the events classified as messages
events and, inside each, the payload entries that qualify, keeping the
emission order. -/
def qualifying_fragments (chunks : List Chunk) : List String :=
  (chunks.filter (fun c => c.event == "messages")).flatMap
    (fun c => (c.data.filter qualifies).map entryText)

/-- Behaviour of the underlying client.runs.stream call when consumed:
the events it yields in order and then, optionally, the message of an
exception it raises after those events. -/
structure StreamRes where
  chunks : List Chunk
  err : Option String
deriving DecidableEq

/-- An error surfaced to a caller: a raw propagated Python exception, an
IndexError from indexing an empty list, or a fastapi HTTPException with
its status code and detail string. -/
inductive Raised where
  | raw (e : String)
  | indexErr
  | http (status : Nat) (detail : String)
deriving DecidableEq

/-- Embedding of get_stream as observed by the caller that consumes the
returned generator.  In the source the try block wraps only the
definition of the async generator event_generator, which cannot raise;
the generator object is returned and its body first runs when the
caller iterates it, outside the try, so an exception from the
underlying stream propagates raw and the except clause that would wrap
it into an HTTPException with status 500 never executes. -/
def get_stream_run (s : StreamRes) : List String × Option Raised :=
  (sseGen s.chunks, s.err.map Raised.raw)

/-- Embedding of set_requests as observed by the callback endpoint when
every POST succeeds: the bodies POSTed to the callback URL in order
(each body is a dict with the single answer key; the model records its
value) paired with the error, if any, escaping set_requests.  The start
marker is POSTed first, then one POST per payload the generator yields;
the end marker is POSTed after the generator is exhausted.  As in
get_stream, the generator body runs inside the async for loop outside
the try block, so a stream failure propagates raw after the POSTs
already issued and the end marker is never sent in that case. -/
def set_requests_run (s : StreamRes) : List String × Option Raised :=
  match s.err with
  | none => ("<answer>" :: (webhookGen s.chunks ++ ["</answer>"]), none)
  | some e => ("<answer>" :: webhookGen s.chunks, some (Raised.raw e))

/-- The detail string get_answer puts into its HTTPException. -/
def getAnswerDetail (uid e : String) : String :=
  "Failed to get answer for user ID \"" ++ uid ++ "\": " ++ e

/-- Embedding of get_answer: the whole values-mode stream is consumed
inside the try block by a list comprehension, so a stream failure is
wrapped into an HTTPException with status 500 whose detail carries the
user id; afterwards the source indexes the last snapshot and then the
last entry of that snapshot's messages list, so an empty stream (or an
empty final messages list) raises an IndexError.  A snapshot is modelled
by the contents of its messages list. -/
def get_answer (uid : String) (stream : Except String (List (List String))) :
    Except Raised String :=
  match stream with
  | .error e => .error (.http 500 (getAnswerDetail uid e))
  | .ok snaps =>
    match snaps.getLast? with
    | none => .error .indexErr
    | some snap =>
      match snap.getLast? with
      | none => .error .indexErr
      | some content => .ok content

/-- Embedding of LangGraphMessages.get_messages along the path where
client.threads.get_state succeeds; logs maps a thread id to the message
log stored in its thread state.  The user's thread is resolved through
_search_thread (search only, no creation).  When a thread is found, its
log is paired by the scanning loop and returned.  When no thread is
found, the source logs a note and then executes the statement returning
the local variable named messages, which was only assigned inside the
thread-found branch, so Python raises UnboundLocalError. -/
def get_messages (s : Store) (logs : String → List Msg) (uid : String) :
    Except Raised (List QAPair) :=
  match search_thread s uid with
  | some tid => .ok (loadMessages (logs tid))
  | none => .error (.raw "UnboundLocalError: messages")

/-- The detail string of the HTTPException raised by _search_thread. -/
def searchThreadDetail (uid e : String) : String :=
  "Failed to get thread state for user ID " ++ uid ++ ": " ++ e

/-- The detail string of the HTTPException raised by _create_thread. -/
def createThreadDetail (uid e : String) : String :=
  "Failed to create thread for " ++ uid ++ ": " ++ e

/-- The detail string of the HTTPException raised by delete_thread. -/
def deleteThreadDetail (e : String) : String :=
  "Failed to delete thread: " ++ e

/-- The detail string of the HTTPException raised inside the deletion
loop of delete_threads. -/
def deleteOneOfThreadsDetail (tid uid e : String) : String :=
  "Failed to delete thread with ID " ++ tid ++ " for user ID " ++ uid ++ ": " ++ e

/-- The detail string of the HTTPException raised by get_threads. -/
def getThreadsDetail (uid e : String) : String :=
  "Failed to search threads for user ID " ++ uid ++ ": " ++ e

/-- Embedding of _search_thread with its external search call
represented by the call's result: a failing call is wrapped into an
HTTPException with status 500 and the search detail string; a
successful call returns the last thread id of the page, if any. -/
def search_thread_r (uid : String) (call : Except String (List ThreadInfo)) :
    Except Raised (Option String) :=
  match call with
  | .error e => .error (.http 500 (searchThreadDetail uid e))
  | .ok ts => .ok ((ts.getLast?).map (fun t => t.tid))

/-- Embedding of _create_thread with its external create call
represented by the call's result. -/
def create_thread_r (uid : String) (call : Except String String) : Except Raised String :=
  match call with
  | .error e => .error (.http 500 (createThreadDetail uid e))
  | .ok tid => .ok tid

/-- Embedding of delete_thread with both external calls represented by
their results: the search call's result and, when a thread is resolved,
the delete call's result. -/
def delete_thread_r (uid : String) (searchCall : Except String (List ThreadInfo))
    (delCall : Except String Unit) : Except Raised (Option String) :=
  match search_thread_r uid searchCall with
  | .error h => .error h
  | .ok none => .ok none
  | .ok (some tid) =>
    match delCall with
    | .error e => .error (.http 500 (deleteThreadDetail e))
    | .ok _ => .ok (some tid)

/-- The error path of one iteration of the deletion loop inside
delete_threads, with the delete call represented by its result. -/
def delete_loop_step_r (uid tid : String) (call : Except String Unit) : Except Raised Unit :=
  match call with
  | .error e => .error (.http 500 (deleteOneOfThreadsDetail tid uid e))
  | .ok _ => .ok ()

/-- The error path of one search page inside get_threads, with the
search call represented by its result. -/
def get_threads_step_r (uid : String) (call : Except String (List ThreadInfo)) :
    Except Raised (List ThreadInfo) :=
  match call with
  | .error e => .error (.http 500 (getThreadsDetail uid e))
  | .ok ts => .ok ts

/-- Whether the first character list occurs at the start of the second. -/
def leadsWith : List Char → List Char → Bool
  | [], _ => true
  | _ :: _, [] => false
  | a :: n, b :: h => a == b && leadsWith n h

/-- Whether the first character list occurs contiguously somewhere
inside the second. -/
def occursIn (n : List Char) : List Char → Bool
  | [] => leadsWith n []
  | b :: h => leadsWith n (b :: h) || occursIn n h

/-- Whether the first string occurs contiguously inside the second. -/
def occursInS (n h : String) : Bool := occursIn n.data h.data

theorem leadsWith_self_append (n s : List Char) : leadsWith n (n ++ s) = true := by
  induction n with
  | nil => rfl
  | cons a t ih => simp [leadsWith, ih]

theorem occursIn_of_leadsWith {n h : List Char} (hl : leadsWith n h = true) :
    occursIn n h = true := by
  cases h with
  | nil => simpa [occursIn] using hl
  | cons b t => simp [occursIn, hl]

theorem occursIn_append_right (n p h : List Char) (hh : occursIn n h = true) :
    occursIn n (p ++ h) = true := by
  induction p with
  | nil => simpa using hh
  | cons b t ih => simp [occursIn, ih]

theorem occursInS_middle (p n s : String) : occursInS n (p ++ n ++ s) = true := by
  show occursIn n.data (p.data ++ n.data ++ s.data) = true
  rw [List.append_assoc]
  exact occursIn_append_right _ _ _ (occursIn_of_leadsWith (leadsWith_self_append _ _))

theorem occursInS_suffix (p n : String) : occursInS n (p ++ n) = true := by
  have h := occursInS_middle p n ""
  simpa using h

theorem occursInS_mid4 (a n b e : String) : occursInS n (a ++ n ++ b ++ e) = true := by
  rw [String.append_assoc (a ++ n) b e]
  exact occursInS_middle a n (b ++ e)

theorem pairLoop_answer_isSome (log : List Msg) :
    ∀ pend, ∀ p ∈ pairLoop log pend, p.answer.isSome = true := by
  induction log with
  | nil => intro pend p hp; simp [pairLoop] at hp
  | cons m rest ih =>
    intro pend p hp
    simp only [pairLoop] at hp
    by_cases hai : (m.mtype == "ai" && !m.toolCalls) = true
    · rw [if_pos hai] at hp
      rcases List.mem_cons.mp hp with h1 | h2
      · subst h1; rfl
      · exact ih _ p h2
    · rw [if_neg hai] at hp
      exact ih _ p hp

theorem pairLoop_concat_human (log : List Msg) (q : String) :
    ∀ pend, pairLoop (log ++ [⟨"human", q, false⟩]) pend = pairLoop log pend := by
  induction log with
  | nil => intro pend; rfl
  | cons m rest ih =>
    intro pend
    simp only [List.cons_append, pairLoop]
    by_cases hai : (m.mtype == "ai" && !m.toolCalls) = true
    · rw [if_pos hai, if_pos hai, List.append_eq, ih]
    · rw [if_neg hai, if_neg hai, List.append_eq, ih]

/-- C8: for the message log consisting of human "Q1", ai "A1",
human "Q2", ai "A2" (no tool-call metadata on any message), get_messages
yields exactly the pairs question "Q1" / answer "A1" and question "Q2" /
answer "A2", in that order: each human message sets the pending question
and each assistant message sets the answer, appends the pair and starts
a fresh pending pair. -/
theorem load_messages_round_trip :
    get_messages ⟨[⟨"t1", "u1", "idle"⟩], 1⟩
      (fun _ => [⟨"human", "Q1", false⟩, ⟨"ai", "A1", false⟩,
                 ⟨"human", "Q2", false⟩, ⟨"ai", "A2", false⟩]) "u1" =
      Except.ok [⟨some "Q1", some "A1"⟩, ⟨some "Q2", some "A2"⟩] := rfl

/-- C9 (amended): for every message log, get_messages never emits a pair
with a missing answer field, and a pending pair holding only a question
with no following assistant answer at the end of the log is dropped
(appending a trailing human message leaves the output unchanged); a pair
with a missing question can however be emitted when an assistant message
arrives while no question is pending. -/
theorem load_messages_pairs_have_answer (s : Store) (logs : String → List Msg) (uid : String) :
    (∀ pairs, get_messages s logs uid = Except.ok pairs →
      ∀ p ∈ pairs, p.answer.isSome = true) ∧
    (∀ log q, loadMessages (log ++ [⟨"human", q, false⟩]) = loadMessages log) := by
  constructor
  · intro pairs hok p hp
    unfold get_messages at hok
    cases hse : search_thread s uid with
    | none => rw [hse] at hok; exact absurd hok (by simp)
    | some tid =>
      rw [hse] at hok
      have hpairs : pairs = loadMessages (logs tid) := by
        cases hok; rfl
      subst hpairs
      exact pairLoop_answer_isSome _ _ p hp
  · intro log q
    exact pairLoop_concat_human log q _

theorem load_messages_pairs_have_answer_witness :
    (⟨some "Q1", some "A1"⟩ : QAPair).answer.isSome = true := by
  have h := load_messages_pairs_have_answer ⟨[⟨"t1", "u1", "idle"⟩], 1⟩
    (fun _ => [⟨"human", "Q1", false⟩, ⟨"ai", "A1", false⟩]) "u1"
  exact h.1 [⟨some "Q1", some "A1"⟩] rfl ⟨some "Q1", some "A1"⟩ (by decide)

/-- C9 counterexample: on the log holding a single assistant message
with no preceding human message, get_messages emits a pair whose
question field is missing (None), so the claim that no emitted pair ever
has a missing question field fails. -/
theorem load_messages_missing_question_pair :
    get_messages ⟨[⟨"t1", "u1", "idle"⟩], 1⟩ (fun _ => [⟨"ai", "A1", false⟩]) "u1" =
      Except.ok [⟨none, some "A1"⟩] ∧
    (⟨none, some "A1"⟩ : QAPair).question.isNone = true := ⟨rfl, rfl⟩

/-- C1 (code bug): when the search resolves no thread for the user,
get_messages does not return an empty sequence: the source reaches the
statement returning the local variable named messages, which was only
assigned inside the thread-found branch, so Python raises
UnboundLocalError instead of returning an empty list. -/
theorem get_messages_missing_thread_raises (s : Store) (logs : String → List Msg)
    (uid : String) (h : search_thread s uid = none) :
    get_messages s logs uid = Except.error (Raised.raw "UnboundLocalError: messages") := by
  unfold get_messages
  rw [h]

theorem get_messages_missing_thread_raises_witness :
    get_messages ⟨[], 0⟩ (fun _ => []) "u1" =
      Except.error (Raised.raw "UnboundLocalError: messages") :=
  get_messages_missing_thread_raises ⟨[], 0⟩ (fun _ => []) "u1" rfl

/-- C2 (code bug): a failure of the underlying execution stream is not
wrapped into a 500-class HTTPException by get_stream or set_requests:
the try block in both functions wraps only the definition of the async
generator, whose body runs when it is consumed, outside the try, so the
raw exception propagates and is never equal to an HTTPException
value. -/
theorem stream_failure_propagates_raw (s : StreamRes) (e : String) (h : s.err = some e) :
    (get_stream_run s).2 = some (Raised.raw e) ∧
    (set_requests_run s).2 = some (Raised.raw e) ∧
    (∀ st d, decide (Raised.raw e = Raised.http st d) = false) := by
  refine ⟨?_, ?_, ?_⟩
  · simp [get_stream_run, h]
  · simp [set_requests_run, h]
  · intro st d; rfl

theorem stream_failure_propagates_raw_witness :
    (get_stream_run ⟨[], some "boom"⟩).2 = some (Raised.raw "boom") :=
  (stream_failure_propagates_raw ⟨[], some "boom"⟩ "boom" rfl).1

theorem webhookGenOf_eq (l : List Entry) :
    webhookGenOf l = (l.filter qualifies).map entryText := by
  induction l with
  | nil => rfl
  | cons e rest ih =>
    by_cases hq : qualifies e = true
    · simp [webhookGenOf, List.filter_cons, hq, ih]
    · simp [webhookGenOf, List.filter_cons, hq, ih]

theorem webhookGen_eq (chunks : List Chunk) :
    webhookGen chunks = qualifying_fragments chunks := by
  induction chunks with
  | nil => rfl
  | cons c rest ih =>
    by_cases hc : (c.event == "messages") = true
    · simp [webhookGen, qualifying_fragments, List.filter_cons, hc, webhookGenOf_eq, ih]
    · simp [webhookGen, qualifying_fragments, List.filter_cons, hc, ih]

theorem sseLinesOf_eq (l : List Entry) :
    sseLinesOf l = (webhookGenOf l).map (fun s => "data: " ++ jsonAnswer s ++ "\n") := by
  induction l with
  | nil => rfl
  | cons e rest ih =>
    by_cases hq : qualifies e = true
    · simp [sseLinesOf, webhookGenOf, hq, ih]
    · simp [sseLinesOf, webhookGenOf, hq, ih]

theorem sseGen_eq (chunks : List Chunk) :
    sseGen chunks = (webhookGen chunks).map (fun s => "data: " ++ jsonAnswer s ++ "\n") := by
  induction chunks with
  | nil => rfl
  | cons c rest ih =>
    by_cases hc : (c.event == "messages") = true
    · simp [sseGen, webhookGen, hc, sseLinesOf_eq, ih]
    · simp [sseGen, webhookGen, hc, ih]

/-- C3: a failing execution stream makes the blocking get_answer raise
an HTTPException with status 500 whose detail carries the user id; a
stream yielding no snapshots makes it raise an IndexError rather than
return an empty answer; and on a stream with snapshots it returns the
textual content of the last message of the final value snapshot. -/
theorem get_answer_spec (uid : String) :
    (∀ e, get_answer uid (Except.error e) =
        Except.error (Raised.http 500 (getAnswerDetail uid e)) ∧
      occursInS uid (getAnswerDetail uid e) = true) ∧
    get_answer uid (Except.ok []) = Except.error Raised.indexErr ∧
    (∀ init snap c, snap.getLast? = some c →
      get_answer uid (Except.ok (init ++ [snap])) = Except.ok c) := by
  refine ⟨fun e => ⟨rfl, ?_⟩, rfl, fun init snap c h => ?_⟩
  · exact occursInS_mid4 "Failed to get answer for user ID \"" uid "\": " e
  · simp [get_answer, List.getLast?_concat, h]

theorem get_answer_spec_witness :
    get_answer "u1" (Except.ok [["ans"]]) = Except.ok "ans" := by
  have h := (get_answer_spec "u1").2.2 [] ["ans"] "ans" (by decide)
  simpa using h

/-- C4: when the execution stream succeeds, webhook delivery POSTs the
start marker, then one body per qualifying fragment in the exact order
the stream emitted them, then the end marker, so the number of POSTs is
the number of qualifying fragments plus two; the stream yielding the
fragments "Hel" and "lo" produces exactly the four POSTs start marker,
"Hel", "lo", end marker. -/
theorem set_requests_post_sequence (chunks : List Chunk) :
    (set_requests_run ⟨chunks, none⟩).1 =
      "<answer>" :: (qualifying_fragments chunks ++ ["</answer>"]) ∧
    (set_requests_run ⟨chunks, none⟩).1.length = (qualifying_fragments chunks).length + 2 ∧
    (set_requests_run ⟨chunks, none⟩).2 = none ∧
    (set_requests_run ⟨[⟨"messages", [⟨some "Hel", false, "AIMessageChunk"⟩]⟩,
        ⟨"messages", [⟨some "lo", false, "AIMessageChunk"⟩]⟩], none⟩).1 =
      ["<answer>", "Hel", "lo", "</answer>"] := by
  refine ⟨?_, ?_, rfl, rfl⟩
  · simp [set_requests_run, webhookGen_eq]
  · simp [set_requests_run, webhookGen_eq]

/-- C5 (amended): on a successful stream, get_stream emits exactly one
output line per qualifying payload entry (content present, no tool-call
metadata, incremental assistant fragment), in stream order; each line is
the single-line JSON object carrying the fragment under the answer key,
prefixed by the server-sent-events marker and terminated by a newline;
and an entry carrying tool-call metadata never qualifies, so it produces
no output even if it has content. -/
theorem get_stream_line_per_fragment (chunks : List Chunk) :
    get_stream_run ⟨chunks, none⟩ =
      ((qualifying_fragments chunks).map (fun s => "data: " ++ jsonAnswer s ++ "\n"), none) ∧
    (∀ e : Entry, e.toolCalls = true → qualifies e = false) := by
  constructor
  · simp [get_stream_run, sseGen_eq, webhookGen_eq]
  · intro e he; simp [qualifies, he]

theorem get_stream_line_per_fragment_witness :
    qualifies ⟨some "hi", true, "AIMessageChunk"⟩ = false :=
  (get_stream_line_per_fragment []).2 ⟨some "hi", true, "AIMessageChunk"⟩ rfl

/-- C5 counterexample: the line emitted for the fragment "hi" is not
exactly the JSON object terminated by a newline: the source prefixes
every line with the server-sent-events marker consisting of the word
data, a colon and a space. -/
theorem get_stream_line_has_sse_marker :
    get_stream_run ⟨[⟨"messages", [⟨some "hi", false, "AIMessageChunk"⟩]⟩], none⟩ =
      (["data: " ++ jsonAnswer "hi" ++ "\n"], none) ∧
    jsonAnswer "hi" = "\x7b\"answer\": \"hi\"\x7d" ∧
    decide ("data: " ++ jsonAnswer "hi" ++ "\n" = jsonAnswer "hi" ++ "\n") = false := by
  exact ⟨rfl, rfl, by decide⟩

theorem search_thread_eq (s : Store) (uid : String) :
    search_thread s uid =
      (s.threads.filter (matchesQ uid (some "idle"))).head?.map (fun t => t.tid) := by
  unfold search_thread searchThreads
  cases h : s.threads.filter (matchesQ uid (some "idle")) with
  | nil => simp [h]
  | cons a t => simp [h, List.take_succ_cons]

/-- C6: get_thread first searches for an existing idle thread tagged
with the user id; when the search finds one it returns that thread's id
and issues no create call; only when the search finds none does it issue
exactly one create call, tagging the new thread with the user id, and
return the new id, and a second immediate call on the unchanged
resulting state finds that thread and returns the same id with no
further create call. -/
theorem get_thread_resolve_or_create (s : Store) (uid : String) :
    (∀ tid, search_thread s uid = some tid → get_thread s uid = (s, 0, tid)) ∧
    (search_thread s uid = none →
      (get_thread s uid).2.1 = 1 ∧
      (∃ t : ThreadInfo, (get_thread s uid).1.threads = s.threads ++ [t] ∧
        t.uid = uid ∧ (get_thread s uid).2.2 = t.tid) ∧
      get_thread ((get_thread s uid).1) uid =
        ((get_thread s uid).1, 0, (get_thread s uid).2.2)) := by
  constructor
  · intro tid h
    simp [get_thread, h]
  · intro h
    have hfil : s.threads.filter (matchesQ uid (some "idle")) = [] := by
      rw [search_thread_eq] at h
      cases hf : s.threads.filter (matchesQ uid (some "idle")) with
      | nil => rfl
      | cons a t => rw [hf] at h; simp at h
    have hg : get_thread s uid =
        (⟨s.threads ++ [⟨freshTid s, uid, "idle"⟩], s.nextId + 1⟩, 1, freshTid s) := by
      simp [get_thread, h, create_thread]
    refine ⟨by rw [hg], ⟨⟨freshTid s, uid, "idle"⟩, by rw [hg], rfl, by rw [hg]⟩, ?_⟩
    rw [hg]
    have hsearch : search_thread ⟨s.threads ++ [⟨freshTid s, uid, "idle"⟩], s.nextId + 1⟩ uid
        = some (freshTid s) := by
      rw [search_thread_eq]
      simp [List.filter_append, hfil, matchesQ, Option.all]
    simp [get_thread, hsearch]

theorem get_thread_resolve_or_create_witness :
    (get_thread ⟨[], 0⟩ "u1").2.1 = 1 ∧
    get_thread ((get_thread ⟨[], 0⟩ "u1").1) "u1" =
      ((get_thread ⟨[], 0⟩ "u1").1, 0, (get_thread ⟨[], 0⟩ "u1").2.2) := by
  have h := (get_thread_resolve_or_create ⟨[], 0⟩ "u1").2 (by decide)
  exact ⟨h.1, h.2.2⟩

theorem collect_threads_loop_eq (fil : List ThreadInfo) (offset : Nat) :
    collect_threads_loop fil 1 offset = (fil.drop offset).map (fun t => t.tid) := by
  cases hd : fil.drop offset with
  | nil =>
    rw [collect_threads_loop.eq_def]
    simp [hd]
  | cons a t =>
    have h1 : (fil.drop offset).take 1 = [a] := by rw [hd]; rfl
    have hlt : offset < fil.length := by
      by_contra hle
      rw [List.drop_eq_nil_of_le (Nat.le_of_not_lt hle)] at hd
      exact absurd hd (by simp)
    have h2 : fil.drop (offset + 1) = t := by
      have hdd : (fil.drop offset).drop 1 = fil.drop (offset + 1) := List.drop_drop 1 offset fil
      rw [hd] at hdd
      exact hdd.symm
    rw [collect_threads_loop.eq_def]
    simp [h1, hd, collect_threads_loop_eq fil (offset + 1), h2]
termination_by fil.length - offset
decreasing_by omega

theorem deleteEach_calls (ids : List String) : ∀ s, (deleteEach s ids).2 = ids := by
  induction ids with
  | nil => intro s; rfl
  | cons tid rest ih => intro s; simp [deleteEach, ih]

/-- C10: thread resolution and single deletion consider only idle
threads while listing and bulk deletion consider threads in any
lifecycle state: for a user all of whose threads are non-idle, the
search inside delete_thread finds nothing, so it issues no delete call
and returns the absent result, whereas delete_threads lists exactly
those threads, issues one delete call per thread, and returns their
ids. -/
theorem idle_only_vs_all_threads (s : Store) (uid : String)
    (hall : ∀ t ∈ s.threads, t.uid = uid → t.status ≠ "idle") :
    delete_thread s uid = (s, [], none) ∧
    (delete_threads s uid).2.2 =
      (s.threads.filter (fun t => t.uid == uid)).map (fun t => t.tid) ∧
    (delete_threads s uid).2.1 = (delete_threads s uid).2.2 := by
  have hfil : s.threads.filter (matchesQ uid (some "idle")) = [] := by
    rw [List.filter_eq_nil_iff]
    intro t ht hm
    simp [matchesQ, Option.all] at hm
    exact hall t ht hm.1 hm.2
  have hnone : search_thread s uid = none := by
    rw [search_thread_eq, hfil]; rfl
  refine ⟨by simp [delete_thread, hnone], ?_, ?_⟩
  · simp [delete_threads, get_threads, collect_threads_loop_eq]
  · simp [delete_threads, deleteEach_calls]

theorem idle_only_vs_all_threads_witness :
    delete_thread ⟨[⟨"t1", "u1", "busy"⟩], 1⟩ "u1" =
      (⟨[⟨"t1", "u1", "busy"⟩], 1⟩, [], none) ∧
    (delete_threads ⟨[⟨"t1", "u1", "busy"⟩], 1⟩ "u1").2.2 = ["t1"] := by
  have h := idle_only_vs_all_threads ⟨[⟨"t1", "u1", "busy"⟩], 1⟩ "u1" (by decide)
  refine ⟨h.1, ?_⟩
  rw [h.2.1]
  rfl

/-- C7 (amended): every failing external call inside the thread
directory is surfaced as an HTTPException with status 500; the detail
carries the underlying cause in every operation, and carries the user id
for lookup, creation, listing and bulk deletion, but the error raised
when deleting the resolved thread inside delete_thread names only the
cause, not the user id. -/
theorem thread_error_details (uid tid e : String) :
    search_thread_r uid (Except.error e) =
      Except.error (Raised.http 500 (searchThreadDetail uid e)) ∧
    occursInS uid (searchThreadDetail uid e) = true ∧
    occursInS e (searchThreadDetail uid e) = true ∧
    create_thread_r uid (Except.error e) =
      Except.error (Raised.http 500 (createThreadDetail uid e)) ∧
    occursInS uid (createThreadDetail uid e) = true ∧
    occursInS e (createThreadDetail uid e) = true ∧
    get_threads_step_r uid (Except.error e) =
      Except.error (Raised.http 500 (getThreadsDetail uid e)) ∧
    occursInS uid (getThreadsDetail uid e) = true ∧
    occursInS e (getThreadsDetail uid e) = true ∧
    delete_loop_step_r uid tid (Except.error e) =
      Except.error (Raised.http 500 (deleteOneOfThreadsDetail tid uid e)) ∧
    occursInS uid (deleteOneOfThreadsDetail tid uid e) = true ∧
    occursInS e (deleteOneOfThreadsDetail tid uid e) = true ∧
    (∀ t : ThreadInfo, delete_thread_r uid (Except.ok [t]) (Except.error e) =
      Except.error (Raised.http 500 (deleteThreadDetail e))) ∧
    occursInS e (deleteThreadDetail e) = true := by
  refine ⟨rfl, ?_, ?_, rfl, ?_, ?_, rfl, ?_, ?_, rfl, ?_, ?_, fun t => rfl, ?_⟩
  · exact occursInS_mid4 "Failed to get thread state for user ID " uid ": " e
  · exact occursInS_suffix _ e
  · exact occursInS_mid4 "Failed to create thread for " uid ": " e
  · exact occursInS_suffix _ e
  · exact occursInS_mid4 "Failed to search threads for user ID " uid ": " e
  · exact occursInS_suffix _ e
  · exact occursInS_mid4 ("Failed to delete thread with ID " ++ tid ++ " for user ID ") uid ": " e
  · exact occursInS_suffix _ e
  · exact occursInS_suffix "Failed to delete thread: " e

/-- C7 counterexample: the error raised when the delete call inside
delete_thread fails carries only the underlying cause: for user id "u1"
and cause "boom" the detail string does not contain the user id. -/
theorem deleteThread_detail_lacks_user :
    delete_thread_r "u1" (Except.ok [⟨"t1", "u1", "idle"⟩]) (Except.error "boom") =
      Except.error (Raised.http 500 "Failed to delete thread: boom") ∧
    occursInS "u1" "Failed to delete thread: boom" = false := by
  exact ⟨rfl, by decide⟩
